import Mathlib

/-!
Shallow embedding of two fragments of the vscode repository:

 - the minimap color tracking and character rendering code
   (src/unnamed/part_000: ParsedColor, MinimapTokensColorTracker,
   MinimapCharRenderer), and
 - the git extension content provider
   (src/extensions/git/src/contentProvider.ts: GitContentProvider).

JavaScript strings are modelled as lists of UTF-16 code units (List Nat),
JavaScript numbers occurring in color arithmetic as exact rationals, and
the Uint8ClampedArray pixel buffers as lists of naturals together with the
ToUint8Clamp store conversion (clamp to 0..255, round to nearest, ties to
even) and the typed-array rule that out-of-bounds stores are silently
dropped.
-/

namespace VSCodeSpec

/-- Color value as built by the ParsedColor constructor: three channels and
the derived isLight flag. Channels are modelled as exact rationals. -/
structure ParsedColor where
  r : ℚ
  g : ℚ
  b : ℚ
  isLight : Bool
deriving DecidableEq

/-- The ParsedColor constructor: stores the channels and computes
isLight as (r + g + b) / (3 * 255) > 0.5. -/
def ParsedColor.make (r g b : ℚ) : ParsedColor :=
  ⟨r, g, b, decide ((r + g + b) / (3 * 255) > (0.5 : ℚ))⟩

/-- MinimapTokensColorTracker._parseHexDigit: the switch over character
codes; any code outside the hexadecimal digit codes falls through to 0. -/
def parseHexDigit (charCode : ℕ) : ℕ :=
  match charCode with
  | 48 => 0
  | 49 => 1
  | 50 => 2
  | 51 => 3
  | 52 => 4
  | 53 => 5
  | 54 => 6
  | 55 => 7
  | 56 => 8
  | 57 => 9
  | 97 => 10
  | 65 => 10
  | 98 => 11
  | 66 => 11
  | 99 => 12
  | 67 => 12
  | 100 => 13
  | 68 => 13
  | 101 => 14
  | 69 => 14
  | 102 => 15
  | 70 => 15
  | _ => 0

/-- MinimapTokensColorTracker._parseColor. A missing or empty string is
falsy; charCodeAt 0 is the head code; substr is drop/take. Code 35 is the
hash sign. -/
def parseColor (color : List ℕ) : ParsedColor :=
  if color = [] then ParsedColor.make 0 0 0
  else
    let c := if color.headI = 35 then (color.drop 1).take 6 else color.take 6
    if c.length ≠ 6 then ParsedColor.make 0 0 0
    else
      let r := 16 * parseHexDigit (c.getD 0 0) + parseHexDigit (c.getD 1 0)
      let g := 16 * parseHexDigit (c.getD 2 0) + parseHexDigit (c.getD 3 0)
      let b := 16 * parseHexDigit (c.getD 4 0) + parseHexDigit (c.getD 5 0)
      ParsedColor.make r g b

/-- Lowercase hexadecimal digit character code for a value below 16,
as produced by JavaScript Number.prototype.toString with radix 16. -/
def hexDigitCode (k : ℕ) : ℕ := if k < 10 then 48 + k else 87 + k

/-- Fuel-driven hexadecimal printing helper. -/
def natToHexAux : ℕ → ℕ → List ℕ
  | 0, _ => []
  | fuel + 1, n =>
      if n < 16 then [hexDigitCode n]
      else natToHexAux fuel (n / 16) ++ [hexDigitCode (n % 16)]

/-- JavaScript Number.prototype.toString with radix 16, modelled for the
non-negative integer channel values the color tracker produces. -/
def numToString16 (n : ℕ) : List ℕ := natToHexAux (n + 1) n

/-- ParsedColor._toTwoDigitHex: the radix-16 rendering, left-padded with the
character 0 whenever its length is not 2. -/
def toTwoDigitHex (n : ℕ) : List ℕ :=
  let r := numToString16 n
  if r.length ≠ 2 then 48 :: r else r

/-- ParsedColor.toCSSHex: a hash sign followed by the two-digit hexadecimal
renderings of the three channels. The channels of every color the tracker
builds are non-negative integers; the embedding reads them back through the
rational numerator. -/
def ParsedColor.toCSSHex (c : ParsedColor) : List ℕ :=
  35 :: (toTwoDigitHex c.r.num.toNat ++ (toTwoDigitHex c.g.num.toNat ++ toTwoDigitHex c.b.num.toNat))

/-- MinimapTokensColorTracker.getColor. The color table is a list whose
slot 0 holds null; reading any index outside the list yields undefined,
modelled by the default none. An identifier below 1 or beyond the table
length is replaced by the background identifier 2 before the lookup. -/
def getColor (colors : List (Option ParsedColor)) (colorId : ℤ) : Option ParsedColor :=
  let cid : ℤ := if colorId < 1 ∨ colorId ≥ (colors.length : ℤ) then 2 else colorId
  colors.getD cid.toNat none

/-- Normalized form of a color string as named by the specification:
remove an optional leading hash sign and truncate to 6 characters. This is
exactly the intermediate string the parser computes before its length
check. -/
def normalizeColor (color : List ℕ) : List ℕ :=
  if color.headI = 35 then (color.drop 1).take 6 else color.take 6

/-- Character codes of hexadecimal digits: 0-9, a-f, A-F. -/
def isHexDigitCode (c : ℕ) : Bool :=
  decide ((48 ≤ c ∧ c ≤ 57) ∨ (97 ≤ c ∧ c ≤ 102) ∨ (65 ≤ c ∧ c ≤ 70))

/-- Mathematical value of a hexadecimal digit character code, the
reference for the manual channel decomposition of the specification. -/
def hexVal (c : ℕ) : ℕ :=
  if 48 ≤ c ∧ c ≤ 57 then c - 48
  else if 97 ≤ c ∧ c ≤ 102 then c - 87
  else if 65 ≤ c ∧ c ≤ 70 then c - 55
  else 0

/-- C1: the claim states that any input whose normalized form is not
exactly 6 hexadecimal digits parses to black. The input 1z1z1z has a
6-character normalized form containing non-hexadecimal characters, yet it
parses to the color (16, 16, 16), not to black: the parser only checks the
length of the normalized form and treats non-hexadecimal characters as the
digit 0. -/
theorem claim_C1_counterexample :
    ¬ (∀ c ∈ normalizeColor [49, 122, 49, 122, 49, 122], isHexDigitCode c = true) ∧
    parseColor [49, 122, 49, 122, 49, 122] ≠ ParsedColor.make 0 0 0 := by
  constructor
  · intro h
    have := h 122 (by decide)
    simp [isHexDigitCode] at this
  · decide

/-- C1 (amended): for every input string that is empty or missing, or
whose normalized form (after removing an optional leading hash and
truncating to 6 characters) is not exactly 6 characters long, the result
of MinimapTokensColorTracker._parseColor is the black color (0, 0, 0). -/
theorem claim_C1 (color : List ℕ)
    (h : color = [] ∨ (normalizeColor color).length ≠ 6) :
    parseColor color = ParsedColor.make 0 0 0 := by
  unfold parseColor
  unfold normalizeColor at h
  rcases h with h | h
  · simp [h]
  · by_cases he : color = []
    · simp [he]
    · simp only [List.drop_one] at h
      simp [he, h]

/-- Witness for C1 at the concrete input consisting of a lone hash sign. -/
theorem claim_C1_witness :
    (([35] : List ℕ) = [] ∨ (normalizeColor [35]).length ≠ 6) ∧
    parseColor [35] = ParsedColor.make 0 0 0 :=
  ⟨Or.inr (by decide), claim_C1 [35] (Or.inr (by decide))⟩

/-- C5: the ParsedColor constructed from channels r, g, b has
isLight = true exactly when (r + g + b) / (3 * 255) > 0.5, and when that
quotient is exactly 0.5 the flag is false. -/
theorem claim_C5 (r g b : ℚ) :
    ((ParsedColor.make r g b).isLight = true ↔ (r + g + b) / (3 * 255) > (0.5 : ℚ)) ∧
    ((r + g + b) / (3 * 255) = (0.5 : ℚ) → (ParsedColor.make r g b).isLight = false) := by
  constructor
  · simp [ParsedColor.make]
  · intro h
    simp only [ParsedColor.make, h, decide_eq_false_iff_not]
    exact lt_irrefl _

/-- Witness for C5 at channels summing to exactly half of the maximum. -/
theorem claim_C5_witness :
    (((765 : ℚ) / 2 + 0 + 0) / (3 * 255) = (0.5 : ℚ)) ∧
    (ParsedColor.make ((765 : ℚ) / 2) 0 0).isLight = false :=
  ⟨by norm_num, (claim_C5 ((765 : ℚ) / 2) 0 0).2 (by norm_num)⟩

/-- Example color table shared by concrete evaluations. -/
def exTable : List (Option ParsedColor) :=
  [none, some (ParsedColor.make 1 2 3), some (ParsedColor.make 4 5 6)]

/-- C4: getColor returns the entry at the background identifier 2 for
every identifier below 1 or at least the table length, and the entry at
the identifier itself otherwise. -/
theorem claim_C4 (colors : List (Option ParsedColor)) (colorId : ℤ) :
    (colorId < 1 ∨ colorId ≥ (colors.length : ℤ) →
      getColor colors colorId = colors.getD 2 none) ∧
    (1 ≤ colorId ∧ colorId < (colors.length : ℤ) →
      getColor colors colorId = colors.getD colorId.toNat none) := by
  constructor
  · intro h
    simp only [getColor, if_pos h]
    rfl
  · rintro ⟨h1, h2⟩
    have hno : ¬ (colorId < 1 ∨ colorId ≥ (colors.length : ℤ)) := by omega
    simp only [getColor, if_neg hno]

/-- Witness for C4 on a three-entry table at identifiers 0 and 1. -/
theorem claim_C4_witness :
    getColor exTable 0 = exTable.getD 2 none ∧
    getColor exTable 1 = exTable.getD 1 none :=
  ⟨(claim_C4 exTable 0).1 (by decide), (claim_C4 exTable 1).2 (by decide)⟩

theorem parseHexDigit_eq_hexVal_bounded :
    ∀ c < 103, isHexDigitCode c = true → parseHexDigit c = hexVal c := by decide

theorem isHexDigitCode_lt (c : ℕ) (h : isHexDigitCode c = true) : c < 103 := by
  simp only [isHexDigitCode, decide_eq_true_eq] at h
  omega

/-- On hexadecimal digit character codes the parser digit table agrees with
the mathematical digit value. -/
theorem parseHexDigit_eq_hexVal (c : ℕ) (h : isHexDigitCode c = true) :
    parseHexDigit c = hexVal c :=
  parseHexDigit_eq_hexVal_bounded c (isHexDigitCode_lt c h) h

theorem isHexDigitCode_ne_hash (c : ℕ) (h : isHexDigitCode c = true) : c ≠ 35 := by
  simp only [isHexDigitCode, decide_eq_true_eq] at h
  omega

theorem parseHexDigit_lt (c : ℕ) : parseHexDigit c < 16 := by
  unfold parseHexDigit
  split <;> omega

set_option maxRecDepth 8192 in
theorem toTwoDigitHex_eq :
    ∀ n < 256, toTwoDigitHex n = [hexDigitCode (n / 16), hexDigitCode (n % 16)] := by
  decide

theorem parseHexDigit_hexDigitCode :
    ∀ k < 16, parseHexDigit (hexDigitCode k) = k := by decide

/-- Evaluation of the parser on a 6-character string not led by a hash. -/
theorem parseColor_eq_of_len6 (d : List ℕ) (h6 : d.length = 6) (hne : d.headI ≠ 35) :
    parseColor d = ParsedColor.make
      ((16 * parseHexDigit (d.getD 0 0) + parseHexDigit (d.getD 1 0) : ℕ) : ℚ)
      ((16 * parseHexDigit (d.getD 2 0) + parseHexDigit (d.getD 3 0) : ℕ) : ℚ)
      ((16 * parseHexDigit (d.getD 4 0) + parseHexDigit (d.getD 5 0) : ℕ) : ℚ) := by
  have hnil : d ≠ [] := by
    intro h
    rw [h] at h6
    simp at h6
  have htake : d.take 6 = d := List.take_of_length_le (le_of_eq h6)
  rw [parseColor, if_neg hnil]
  simp only [if_neg hne, htake]
  rw [if_neg (not_not_intro h6)]

/-- Evaluation of the parser on a hash sign followed by 6 characters. -/
theorem parseColor_hash_eq (d : List ℕ) (h6 : d.length = 6) (hne : d.headI ≠ 35) :
    parseColor (35 :: d) = parseColor d := by
  have htake : d.take 6 = d := List.take_of_length_le (le_of_eq h6)
  rw [parseColor, if_neg (by simp : (35 :: d : List ℕ) ≠ [])]
  simp only [List.headI, List.drop_one, List.tail_cons, htake, eq_self_iff_true, if_true]
  rw [if_neg (not_not_intro h6), parseColor_eq_of_len6 d h6 hne]

/-- Serialization of a color whose channels are naturals below 256. -/
theorem toCSSHex_make_nat (nr ng nb : ℕ) (h1 : nr < 256) (h2 : ng < 256) (h3 : nb < 256) :
    (ParsedColor.make nr ng nb).toCSSHex =
      [35, hexDigitCode (nr / 16), hexDigitCode (nr % 16),
       hexDigitCode (ng / 16), hexDigitCode (ng % 16),
       hexDigitCode (nb / 16), hexDigitCode (nb % 16)] := by
  simp [ParsedColor.toCSSHex, ParsedColor.make,
    toTwoDigitHex_eq nr h1, toTwoDigitHex_eq ng h2, toTwoDigitHex_eq nb h3]

/-- Re-parsing the serialization of a color with byte channels recovers the
channels. -/
theorem parseColor_toCSSHex_roundtrip (nr ng nb : ℕ)
    (h1 : nr < 256) (h2 : ng < 256) (h3 : nb < 256) :
    parseColor ((ParsedColor.make nr ng nb).toCSSHex) = ParsedColor.make nr ng nb := by
  rw [toCSSHex_make_nat nr ng nb h1 h2 h3]
  have hd6 : ([hexDigitCode (nr / 16), hexDigitCode (nr % 16),
       hexDigitCode (ng / 16), hexDigitCode (ng % 16),
       hexDigitCode (nb / 16), hexDigitCode (nb % 16)] : List ℕ).length = 6 := by simp
  have hhead : ([hexDigitCode (nr / 16), hexDigitCode (nr % 16),
       hexDigitCode (ng / 16), hexDigitCode (ng % 16),
       hexDigitCode (nb / 16), hexDigitCode (nb % 16)] : List ℕ).headI ≠ 35 := by
    simp only [List.headI, hexDigitCode]
    split <;> omega
  have hcons : (35 :: [hexDigitCode (nr / 16), hexDigitCode (nr % 16),
       hexDigitCode (ng / 16), hexDigitCode (ng % 16),
       hexDigitCode (nb / 16), hexDigitCode (nb % 16)] : List ℕ) =
      ([35, hexDigitCode (nr / 16), hexDigitCode (nr % 16),
       hexDigitCode (ng / 16), hexDigitCode (ng % 16),
       hexDigitCode (nb / 16), hexDigitCode (nb % 16)] : List ℕ) := rfl
  rw [← hcons, parseColor_hash_eq _ hd6 hhead, parseColor_eq_of_len6 _ hd6 hhead]
  simp only [List.getD_cons_zero, List.getD_cons_succ]
  rw [parseHexDigit_hexDigitCode (nr / 16) (by omega),
      parseHexDigit_hexDigitCode (nr % 16) (by omega),
      parseHexDigit_hexDigitCode (ng / 16) (by omega),
      parseHexDigit_hexDigitCode (ng % 16) (by omega),
      parseHexDigit_hexDigitCode (nb / 16) (by omega),
      parseHexDigit_hexDigitCode (nb % 16) (by omega),
      Nat.div_add_mod nr 16, Nat.div_add_mod ng 16, Nat.div_add_mod nb 16]

/-- C9: on a string of exactly 6 hexadecimal digit characters, with or
without a leading hash, the parser computes the manual channel
decomposition, and re-parsing the toCSSHex serialization of the result
yields the same channels. -/
theorem claim_C9 (d : List ℕ) (hlen : d.length = 6)
    (hhex : ∀ c ∈ d, isHexDigitCode c = true) :
    ((parseColor d).r = ((16 * hexVal (d.getD 0 0) + hexVal (d.getD 1 0) : ℕ) : ℚ) ∧
     (parseColor d).g = ((16 * hexVal (d.getD 2 0) + hexVal (d.getD 3 0) : ℕ) : ℚ) ∧
     (parseColor d).b = ((16 * hexVal (d.getD 4 0) + hexVal (d.getD 5 0) : ℕ) : ℚ)) ∧
    parseColor (35 :: d) = parseColor d ∧
    ((parseColor (parseColor d).toCSSHex).r = (parseColor d).r ∧
     (parseColor (parseColor d).toCSSHex).g = (parseColor d).g ∧
     (parseColor (parseColor d).toCSSHex).b = (parseColor d).b) := by
  have hmem : ∀ i, i < d.length → d.getD i 0 ∈ d := by
    intro i hi
    rw [List.getD_eq_getElem d 0 hi]
    exact List.getElem_mem hi
  have hne : d.headI ≠ 35 := by
    have : d.headI ∈ d := by
      cases d with
      | nil => simp at hlen
      | cons a l => simp [List.headI]
    exact isHexDigitCode_ne_hash _ (hhex _ this)
  have hv : ∀ i, i < d.length → parseHexDigit (d.getD i 0) = hexVal (d.getD i 0) :=
    fun i hi => parseHexDigit_eq_hexVal _ (hhex _ (hmem i hi))
  have hp := parseColor_eq_of_len6 d hlen hne
  have h0 := hv 0 (by omega)
  have h1 := hv 1 (by omega)
  have h2 := hv 2 (by omega)
  have h3 := hv 3 (by omega)
  have h4 := hv 4 (by omega)
  have h5 := hv 5 (by omega)
  refine ⟨⟨?_, ?_, ?_⟩, parseColor_hash_eq d hlen hne, ?_⟩
  · rw [hp, h0, h1]
    rfl
  · rw [hp, h2, h3]
    rfl
  · rw [hp, h4, h5]
    rfl
  · have b01 : 16 * parseHexDigit (d.getD 0 0) + parseHexDigit (d.getD 1 0) < 256 := by
      have := parseHexDigit_lt (d.getD 0 0)
      have := parseHexDigit_lt (d.getD 1 0)
      omega
    have b23 : 16 * parseHexDigit (d.getD 2 0) + parseHexDigit (d.getD 3 0) < 256 := by
      have := parseHexDigit_lt (d.getD 2 0)
      have := parseHexDigit_lt (d.getD 3 0)
      omega
    have b45 : 16 * parseHexDigit (d.getD 4 0) + parseHexDigit (d.getD 5 0) < 256 := by
      have := parseHexDigit_lt (d.getD 4 0)
      have := parseHexDigit_lt (d.getD 5 0)
      omega
    rw [hp, parseColor_toCSSHex_roundtrip _ _ _ b01 b23 b45]
    exact ⟨rfl, rfl, rfl⟩

/-- Witness for C9 at the concrete input a1B2c3. -/
theorem claim_C9_witness :
    ([97, 49, 66, 50, 99, 51] : List ℕ).length = 6 ∧
    (parseColor [97, 49, 66, 50, 99, 51]).r =
      ((16 * hexVal 97 + hexVal 49 : ℕ) : ℚ) :=
  ⟨by decide, ((claim_C9 [97, 49, 66, 50, 99, 51] (by decide) (by decide)).1).1⟩

/-- Round to the nearest integer with ties to even, the rounding step of
the ECMAScript ToUint8Clamp conversion. -/
def roundHalfEven (q : ℚ) : ℤ :=
  if q - ⌊q⌋ < 1 / 2 then ⌊q⌋
  else if q - ⌊q⌋ > 1 / 2 then ⌊q⌋ + 1
  else if ⌊q⌋ % 2 = 0 then ⌊q⌋ else ⌊q⌋ + 1

/-- ECMAScript ToUint8Clamp: clamp the stored value to the byte range,
then round to the nearest integer with ties to even. This is the
conversion every store into a Uint8ClampedArray performs. -/
def clampByte (v : ℚ) : ℕ :=
  if v ≤ 0 then 0
  else if 255 ≤ v then 255
  else (roundHalfEven v).toNat

/-- Store of one element into a Uint8ClampedArray: an out-of-bounds index
(negative included) drops the store silently, an in-bounds store goes
through ToUint8Clamp. -/
def writeByte (l : List ℕ) (i : ℤ) (v : ℚ) : List ℕ :=
  if 0 ≤ i ∧ i.toNat < l.length then l.set i.toNat (clampByte v) else l

/-- Target pixel buffer: an ImageData with width, height and flat RGBA
byte data. -/
structure ImageData where
  width : ℕ
  height : ℕ
  data : List ℕ
deriving DecidableEq

/-- MinimapCharRenderer._getChIndex. The Constants enumeration is a const
enum, so its members are inlined at use sites: START_CH_CODE is 32 and
CHAR_COUNT is 95. The percent operator of JavaScript is the truncated
remainder. -/
def getChIndex (chCode : ℕ) : ℤ :=
  let c : ℤ := (chCode : ℤ) - 32
  let c2 : ℤ := if c < 0 then c + 95 else c
  Int.tmod c2 95

/-- MinimapCharRenderer.soften: every sample scaled by the factor, the
result stored back into a fresh Uint8ClampedArray. -/
def soften (input : List ℕ) (factor : ℚ) : List ℕ :=
  input.map (fun s => clampByte (s * factor))

/-- The four glyph atlases held by a MinimapCharRenderer. -/
structure MinimapCharRenderer where
  x2charData : List ℕ
  x1charData : List ℕ
  x2charDataLight : List ℕ
  x1charDataLight : List ℕ
deriving DecidableEq

/-- MinimapCharRenderer constructor: fails fast unless both atlases have
the expected lengths (height times width times the 95 supported
characters), then derives the softened variants with factors 12/15 and
50/60. -/
def MinimapCharRenderer.make (x2CharData x1CharData : List ℕ) :
    Option MinimapCharRenderer :=
  if x2CharData.length ≠ 4 * 2 * 95 then none
  else if x1CharData.length ≠ 2 * 1 * 95 then none
  else some ⟨x2CharData, x1CharData,
    soften x2CharData (12 / 15), soften x1CharData (50 / 60)⟩

/-- MinimapCharRenderer.x2RenderChar. The inlined constants are
x2_CHAR_WIDTH = 2, x2_CHAR_HEIGHT = 4 and RGBA_CHANNELS_CNT = 4. The 8
atlas samples are written row-major, three channel stores each; the
stores are element stores into the Uint8ClampedArray of the target. -/
def x2RenderChar (rend : MinimapCharRenderer) (target : ImageData) (dx dy : ℤ)
    (chCode : ℕ) (color backgroundColor : ParsedColor) : ImageData :=
  if dx + 2 > (target.width : ℤ) ∨ dy + 4 > (target.height : ℤ) then
    target
  else
    let x2CharData := if backgroundColor.isLight then rend.x2charDataLight else rend.x2charData
    let chIndex := (getChIndex chCode).toNat
    let outWidth : ℤ := (target.width : ℤ) * 4
    let backgroundR := backgroundColor.r
    let backgroundG := backgroundColor.g
    let backgroundB := backgroundColor.b
    let deltaR := color.r - backgroundR
    let deltaG := color.g - backgroundG
    let deltaB := color.b - backgroundB
    let sourceOffset := chIndex * 4 * 2
    let destOffset0 := dy * outWidth + dx * 4
    let c0 : ℚ := (x2CharData.getD sourceOffset 0 : ℚ) / 255
    let d01 := writeByte target.data (destOffset0 + 0) (backgroundR + deltaR * c0)
    let d02 := writeByte d01 (destOffset0 + 1) (backgroundG + deltaG * c0)
    let d03 := writeByte d02 (destOffset0 + 2) (backgroundB + deltaB * c0)
    let c1 : ℚ := (x2CharData.getD (sourceOffset + 1) 0 : ℚ) / 255
    let d04 := writeByte d03 (destOffset0 + 4) (backgroundR + deltaR * c1)
    let d05 := writeByte d04 (destOffset0 + 5) (backgroundG + deltaG * c1)
    let d06 := writeByte d05 (destOffset0 + 6) (backgroundB + deltaB * c1)
    let destOffset1 := destOffset0 + outWidth
    let c2 : ℚ := (x2CharData.getD (sourceOffset + 2) 0 : ℚ) / 255
    let d07 := writeByte d06 (destOffset1 + 0) (backgroundR + deltaR * c2)
    let d08 := writeByte d07 (destOffset1 + 1) (backgroundG + deltaG * c2)
    let d09 := writeByte d08 (destOffset1 + 2) (backgroundB + deltaB * c2)
    let c3 : ℚ := (x2CharData.getD (sourceOffset + 3) 0 : ℚ) / 255
    let d10 := writeByte d09 (destOffset1 + 4) (backgroundR + deltaR * c3)
    let d11 := writeByte d10 (destOffset1 + 5) (backgroundG + deltaG * c3)
    let d12 := writeByte d11 (destOffset1 + 6) (backgroundB + deltaB * c3)
    let destOffset2 := destOffset1 + outWidth
    let c4 : ℚ := (x2CharData.getD (sourceOffset + 4) 0 : ℚ) / 255
    let d13 := writeByte d12 (destOffset2 + 0) (backgroundR + deltaR * c4)
    let d14 := writeByte d13 (destOffset2 + 1) (backgroundG + deltaG * c4)
    let d15 := writeByte d14 (destOffset2 + 2) (backgroundB + deltaB * c4)
    let c5 : ℚ := (x2CharData.getD (sourceOffset + 5) 0 : ℚ) / 255
    let d16 := writeByte d15 (destOffset2 + 4) (backgroundR + deltaR * c5)
    let d17 := writeByte d16 (destOffset2 + 5) (backgroundG + deltaG * c5)
    let d18 := writeByte d17 (destOffset2 + 6) (backgroundB + deltaB * c5)
    let destOffset3 := destOffset2 + outWidth
    let c6 : ℚ := (x2CharData.getD (sourceOffset + 6) 0 : ℚ) / 255
    let d19 := writeByte d18 (destOffset3 + 0) (backgroundR + deltaR * c6)
    let d20 := writeByte d19 (destOffset3 + 1) (backgroundG + deltaG * c6)
    let d21 := writeByte d20 (destOffset3 + 2) (backgroundB + deltaB * c6)
    let c7 : ℚ := (x2CharData.getD (sourceOffset + 7) 0 : ℚ) / 255
    let d22 := writeByte d21 (destOffset3 + 4) (backgroundR + deltaR * c7)
    let d23 := writeByte d22 (destOffset3 + 5) (backgroundG + deltaG * c7)
    let d24 := writeByte d23 (destOffset3 + 6) (backgroundB + deltaB * c7)
    { target with data := d24 }

/-- MinimapCharRenderer.x1RenderChar. The inlined constants are
x1_CHAR_WIDTH = 1, x1_CHAR_HEIGHT = 2 and RGBA_CHANNELS_CNT = 4. -/
def x1RenderChar (rend : MinimapCharRenderer) (target : ImageData) (dx dy : ℤ)
    (chCode : ℕ) (color backgroundColor : ParsedColor) : ImageData :=
  if dx + 1 > (target.width : ℤ) ∨ dy + 2 > (target.height : ℤ) then
    target
  else
    let x1CharData := if backgroundColor.isLight then rend.x1charDataLight else rend.x1charData
    let chIndex := (getChIndex chCode).toNat
    let outWidth : ℤ := (target.width : ℤ) * 4
    let backgroundR := backgroundColor.r
    let backgroundG := backgroundColor.g
    let backgroundB := backgroundColor.b
    let deltaR := color.r - backgroundR
    let deltaG := color.g - backgroundG
    let deltaB := color.b - backgroundB
    let sourceOffset := chIndex * 2 * 1
    let destOffset0 := dy * outWidth + dx * 4
    let c0 : ℚ := (x1CharData.getD sourceOffset 0 : ℚ) / 255
    let d01 := writeByte target.data (destOffset0 + 0) (backgroundR + deltaR * c0)
    let d02 := writeByte d01 (destOffset0 + 1) (backgroundG + deltaG * c0)
    let d03 := writeByte d02 (destOffset0 + 2) (backgroundB + deltaB * c0)
    let destOffset1 := destOffset0 + outWidth
    let c1 : ℚ := (x1CharData.getD (sourceOffset + 1) 0 : ℚ) / 255
    let d04 := writeByte d03 (destOffset1 + 0) (backgroundR + deltaR * c1)
    let d05 := writeByte d04 (destOffset1 + 1) (backgroundG + deltaG * c1)
    let d06 := writeByte d05 (destOffset1 + 2) (backgroundB + deltaB * c1)
    { target with data := d06 }

/-- C6: the character index equals chCode - 32 modulo 95 (arithmetic
remainder) for every non-negative character code; code 31 wraps to the
last glyph index 94 and code 127 to the first glyph index 0; and both
render functions depend on the character code only through this index,
so they read the atlas at exactly this glyph index. -/
theorem claim_C6 :
    (∀ chCode : ℕ, getChIndex chCode = ((chCode : ℤ) - 32) % 95) ∧
    getChIndex 31 = 94 ∧
    getChIndex 127 = 0 ∧
    (∀ (rend : MinimapCharRenderer) (target : ImageData) (dx dy : ℤ)
       (c c2 : ℕ) (color bg : ParsedColor),
       getChIndex c = getChIndex c2 →
       x2RenderChar rend target dx dy c color bg =
         x2RenderChar rend target dx dy c2 color bg ∧
       x1RenderChar rend target dx dy c color bg =
         x1RenderChar rend target dx dy c2 color bg) := by
  refine ⟨?_, by decide, by decide, ?_⟩
  · intro chCode
    show Int.tmod (if (chCode : ℤ) - 32 < 0 then (chCode : ℤ) - 32 + 95 else (chCode : ℤ) - 32) 95 =
      ((chCode : ℤ) - 32) % 95
    by_cases h : (chCode : ℤ) - 32 < 0
    · rw [if_pos h]
      rw [Int.tmod_eq_emod (by omega) (by omega)]
      omega
    · rw [if_neg h]
      rw [Int.tmod_eq_emod (by omega) (by omega)]
  · intro rend target dx dy c c2 color bg h
    constructor
    · unfold x2RenderChar
      rw [h]
    · unfold x1RenderChar
      rw [h]

/-- Witness for C6: codes 31 and 126 share a glyph index, so rendering
either draws the same glyph. -/
theorem claim_C6_witness :
    getChIndex 31 = getChIndex 126 ∧
    x2RenderChar ⟨[], [], [], []⟩ ⟨0, 0, []⟩ 0 0 31 (ParsedColor.make 0 0 0)
        (ParsedColor.make 0 0 0) =
      x2RenderChar ⟨[], [], [], []⟩ ⟨0, 0, []⟩ 0 0 126 (ParsedColor.make 0 0 0)
        (ParsedColor.make 0 0 0) :=
  ⟨by decide,
   (claim_C6.2.2.2 ⟨[], [], [], []⟩ ⟨0, 0, []⟩ 0 0 31 126 (ParsedColor.make 0 0 0)
      (ParsedColor.make 0 0 0) (by decide)).1⟩

/-- C7: a destination rectangle that exceeds the target on the right or
at the bottom makes both render functions return the target unchanged:
no byte of the buffer is written and nothing is thrown. -/
theorem claim_C7 (rend : MinimapCharRenderer) (target : ImageData) (dx dy : ℤ)
    (chCode : ℕ) (color bg : ParsedColor) :
    (dx + 2 > (target.width : ℤ) ∨ dy + 4 > (target.height : ℤ) →
      x2RenderChar rend target dx dy chCode color bg = target) ∧
    (dx + 1 > (target.width : ℤ) ∨ dy + 2 > (target.height : ℤ) →
      x1RenderChar rend target dx dy chCode color bg = target) := by
  constructor <;> intro h
  · rw [x2RenderChar, if_pos h]
  · rw [x1RenderChar, if_pos h]

/-- Example renderer with all-opaque atlases, built by the constructor. -/
def exRenderer : MinimapCharRenderer :=
  (MinimapCharRenderer.make (List.replicate 760 255) (List.replicate 190 255)).getD
    ⟨[], [], [], []⟩

/-- One-pixel example target. -/
def exTarget1 : ImageData := ⟨1, 1, [7, 7, 7, 7]⟩

/-- Witness for C7 on a one-pixel target, too small for either glyph. -/
theorem claim_C7_witness :
    ((0 : ℤ) + 2 > (exTarget1.width : ℤ) ∨ (0 : ℤ) + 4 > (exTarget1.height : ℤ)) ∧
    x2RenderChar exRenderer exTarget1 0 0 65 (ParsedColor.make 255 255 255)
      (ParsedColor.make 0 0 0) = exTarget1 :=
  ⟨by decide,
   (claim_C7 exRenderer exTarget1 0 0 65 (ParsedColor.make 255 255 255)
      (ParsedColor.make 0 0 0)).1 (by decide)⟩

/-- Channel selector: channel 0 is red, 1 is green, anything else blue. -/
def chanOf (c : ParsedColor) (ch : ℕ) : ℚ :=
  if ch = 0 then c.r else if ch = 1 then c.g else c.b

theorem writeByte_length (l : List ℕ) (i : ℤ) (v : ℚ) :
    (writeByte l i v).length = l.length := by
  unfold writeByte
  split
  · rw [List.length_set]
  · rfl

/-- Reading after a store: the stored index was changed when it was in
bounds, every other index is untouched. -/
theorem writeByte_getD (l : List ℕ) (j : ℤ) (v : ℚ) (i : ℕ) :
    (writeByte l j v).getD i 0 =
      if (i : ℤ) = j ∧ i < l.length then clampByte v else l.getD i 0 := by
  unfold writeByte
  by_cases hb : 0 ≤ j ∧ j.toNat < l.length
  · rw [if_pos hb]
    by_cases hij : (i : ℤ) = j
    · have hi : i = j.toNat := by omega
      rw [if_pos ⟨hij, by omega⟩, List.getD_eq_getElem?_getD, hi,
        List.getElem?_set_self (by omega)]
      rfl
    · rw [if_neg (fun hc => hij hc.1), List.getD_eq_getElem?_getD,
        List.getD_eq_getElem?_getD, List.getElem?_set_ne (by omega)]
  · rw [if_neg hb, if_neg (by omega)]


/-- Sequence of element stores into a Uint8ClampedArray, applied in
order. -/
def writeBytes (l : List ℕ) : List (ℤ × ℚ) → List ℕ
  | [] => l
  | (i, v) :: rest => writeBytes (writeByte l i v) rest

theorem writeBytes_length (l : List ℕ) (ws : List (ℤ × ℚ)) :
    (writeBytes l ws).length = l.length := by
  induction ws generalizing l with
  | nil => rfl
  | cons p rest ih =>
    cases p with
    | mk j v => rw [writeBytes, ih, writeByte_length]

/-- Reading one index after a sequence of stores: the last store whose
in-bounds index matches wins, otherwise the original byte shows. -/
theorem writeBytes_getD (l : List ℕ) (ws : List (ℤ × ℚ)) (i : ℕ) :
    (writeBytes l ws).getD i 0 =
      ws.foldl (fun acc p => if (i : ℤ) = p.1 ∧ i < l.length then clampByte p.2 else acc)
        (l.getD i 0) := by
  induction ws generalizing l with
  | nil => rfl
  | cons p rest ih =>
    cases p with
    | mk j v =>
      rw [writeBytes, ih, writeByte_getD, List.foldl_cons]
      simp only [writeByte_length]

/-- The 24 stores of x2RenderChar in execution order. -/
def x2WriteList (rend : MinimapCharRenderer) (target : ImageData) (dx dy : ℤ)
    (chCode : ℕ) (color backgroundColor : ParsedColor) : List (ℤ × ℚ) :=
  let x2CharData := if backgroundColor.isLight then rend.x2charDataLight else rend.x2charData
  let chIndex := (getChIndex chCode).toNat
  let outWidth : ℤ := (target.width : ℤ) * 4
  let backgroundR := backgroundColor.r
  let backgroundG := backgroundColor.g
  let backgroundB := backgroundColor.b
  let deltaR := color.r - backgroundR
  let deltaG := color.g - backgroundG
  let deltaB := color.b - backgroundB
  let sourceOffset := chIndex * 4 * 2
  let destOffset0 := dy * outWidth + dx * 4
  let destOffset1 := destOffset0 + outWidth
  let destOffset2 := destOffset1 + outWidth
  let destOffset3 := destOffset2 + outWidth
  let c0 : ℚ := (x2CharData.getD sourceOffset 0 : ℚ) / 255
  let c1 : ℚ := (x2CharData.getD (sourceOffset + 1) 0 : ℚ) / 255
  let c2 : ℚ := (x2CharData.getD (sourceOffset + 2) 0 : ℚ) / 255
  let c3 : ℚ := (x2CharData.getD (sourceOffset + 3) 0 : ℚ) / 255
  let c4 : ℚ := (x2CharData.getD (sourceOffset + 4) 0 : ℚ) / 255
  let c5 : ℚ := (x2CharData.getD (sourceOffset + 5) 0 : ℚ) / 255
  let c6 : ℚ := (x2CharData.getD (sourceOffset + 6) 0 : ℚ) / 255
  let c7 : ℚ := (x2CharData.getD (sourceOffset + 7) 0 : ℚ) / 255
  [(destOffset0 + 0, backgroundR + deltaR * c0),
   (destOffset0 + 1, backgroundG + deltaG * c0),
   (destOffset0 + 2, backgroundB + deltaB * c0),
   (destOffset0 + 4, backgroundR + deltaR * c1),
   (destOffset0 + 5, backgroundG + deltaG * c1),
   (destOffset0 + 6, backgroundB + deltaB * c1),
   (destOffset1 + 0, backgroundR + deltaR * c2),
   (destOffset1 + 1, backgroundG + deltaG * c2),
   (destOffset1 + 2, backgroundB + deltaB * c2),
   (destOffset1 + 4, backgroundR + deltaR * c3),
   (destOffset1 + 5, backgroundG + deltaG * c3),
   (destOffset1 + 6, backgroundB + deltaB * c3),
   (destOffset2 + 0, backgroundR + deltaR * c4),
   (destOffset2 + 1, backgroundG + deltaG * c4),
   (destOffset2 + 2, backgroundB + deltaB * c4),
   (destOffset2 + 4, backgroundR + deltaR * c5),
   (destOffset2 + 5, backgroundG + deltaG * c5),
   (destOffset2 + 6, backgroundB + deltaB * c5),
   (destOffset3 + 0, backgroundR + deltaR * c6),
   (destOffset3 + 1, backgroundG + deltaG * c6),
   (destOffset3 + 2, backgroundB + deltaB * c6),
   (destOffset3 + 4, backgroundR + deltaR * c7),
   (destOffset3 + 5, backgroundG + deltaG * c7),
   (destOffset3 + 6, backgroundB + deltaB * c7)]

/-- The 6 stores of x1RenderChar in execution order. -/
def x1WriteList (rend : MinimapCharRenderer) (target : ImageData) (dx dy : ℤ)
    (chCode : ℕ) (color backgroundColor : ParsedColor) : List (ℤ × ℚ) :=
  let x1CharData := if backgroundColor.isLight then rend.x1charDataLight else rend.x1charData
  let chIndex := (getChIndex chCode).toNat
  let outWidth : ℤ := (target.width : ℤ) * 4
  let backgroundR := backgroundColor.r
  let backgroundG := backgroundColor.g
  let backgroundB := backgroundColor.b
  let deltaR := color.r - backgroundR
  let deltaG := color.g - backgroundG
  let deltaB := color.b - backgroundB
  let sourceOffset := chIndex * 2 * 1
  let destOffset0 := dy * outWidth + dx * 4
  let destOffset1 := destOffset0 + outWidth
  let c0 : ℚ := (x1CharData.getD sourceOffset 0 : ℚ) / 255
  let c1 : ℚ := (x1CharData.getD (sourceOffset + 1) 0 : ℚ) / 255
  [(destOffset0 + 0, backgroundR + deltaR * c0),
   (destOffset0 + 1, backgroundG + deltaG * c0),
   (destOffset0 + 2, backgroundB + deltaB * c0),
   (destOffset1 + 0, backgroundR + deltaR * c1),
   (destOffset1 + 1, backgroundG + deltaG * c1),
   (destOffset1 + 2, backgroundB + deltaB * c1)]

theorem x2RenderChar_data (rend : MinimapCharRenderer) (target : ImageData)
    (dx dy : ℤ) (chCode : ℕ) (color bg : ParsedColor)
    (h : ¬ (dx + 2 > (target.width : ℤ) ∨ dy + 4 > (target.height : ℤ))) :
    (x2RenderChar rend target dx dy chCode color bg).data =
      writeBytes target.data (x2WriteList rend target dx dy chCode color bg) := by
  simp only [x2RenderChar, x2WriteList, writeBytes, if_neg h]

theorem x1RenderChar_data (rend : MinimapCharRenderer) (target : ImageData)
    (dx dy : ℤ) (chCode : ℕ) (color bg : ParsedColor)
    (h : ¬ (dx + 1 > (target.width : ℤ) ∨ dy + 2 > (target.height : ℤ))) :
    (x1RenderChar rend target dx dy chCode color bg).data =
      writeBytes target.data (x1WriteList rend target dx dy chCode color bg) := by
  simp only [x1RenderChar, x1WriteList, writeBytes, if_neg h]

set_option maxHeartbeats 1000000 in
/-- In-bounds x2 rendering stores, at every sample pixel channel byte, the
ToUint8Clamp conversion of the interpolation between background and
foreground channel weighted by the atlas sample; the softened atlas is
selected exactly when the background is light. -/
theorem x2RenderChar_written (rend : MinimapCharRenderer) (target : ImageData)
    (dx dy chCode : ℕ) (color bg : ParsedColor) (row col ch : ℕ)
    (hw : dx + 2 ≤ target.width) (hh : dy + 4 ≤ target.height)
    (hlen : target.data.length = target.width * target.height * 4)
    (hrow : row < 4) (hcol : col < 2) (hch : ch < 3) :
    (x2RenderChar rend target dx dy chCode color bg).data.getD
        (((dy + row) * target.width + (dx + col)) * 4 + ch) 0 =
      clampByte (chanOf bg ch + (chanOf color ch - chanOf bg ch) *
        (((if bg.isLight then rend.x2charDataLight else rend.x2charData).getD
            ((getChIndex chCode).toNat * 4 * 2 + (row * 2 + col)) 0 : ℚ) / 255)) := by
  have hw2 : 2 ≤ target.width := by omega
  have hguard : ¬ (((dx : ℕ) : ℤ) + 2 > (target.width : ℤ) ∨
      ((dy : ℕ) : ℤ) + 4 > (target.height : ℤ)) := by omega
  have hpix : (dy + row) * target.width + (dx + col) < target.width * target.height := by
    have h2 : dx + col < target.width := by omega
    calc (dy + row) * target.width + (dx + col)
        < (dy + row) * target.width + target.width := by omega
      _ = (dy + row + 1) * target.width := by ring
      _ ≤ target.height * target.width := Nat.mul_le_mul_right _ (by omega)
      _ = target.width * target.height := Nat.mul_comm _ _
  have hbound : ((dy + row) * target.width + (dx + col)) * 4 + ch < target.data.length := by
    rw [hlen]
    omega
  have hi : ((((dy + row) * target.width + (dx + col)) * 4 + ch : ℕ) : ℤ) =
      ((dy : ℕ) : ℤ) * ((target.width : ℤ) * 4) + ((dx : ℕ) : ℤ) * 4 +
        ((row : ℤ) * ((target.width : ℤ) * 4) + (col : ℤ) * 4 + (ch : ℤ)) := by
    push_cast
    ring
  rw [x2RenderChar_data rend target dx dy chCode color bg hguard, writeBytes_getD]
  simp only [x2WriteList, List.foldl_cons, List.foldl_nil]
  rw [hi]
  interval_cases row <;> interval_cases col <;> interval_cases ch
  all_goals repeat rw [if_neg (by rintro ⟨hA, -⟩ ; omega)]
  all_goals rw [if_pos ⟨by omega, hbound⟩]
  all_goals congr 1

set_option maxHeartbeats 1000000 in
/-- In-bounds x1 rendering stores, at both sample pixel channel bytes, the
ToUint8Clamp conversion of the interpolated value; the softened atlas is
selected exactly when the background is light. -/
theorem x1RenderChar_written (rend : MinimapCharRenderer) (target : ImageData)
    (dx dy chCode : ℕ) (color bg : ParsedColor) (row ch : ℕ)
    (hw : dx + 1 ≤ target.width) (hh : dy + 2 ≤ target.height)
    (hlen : target.data.length = target.width * target.height * 4)
    (hrow : row < 2) (hch : ch < 3) :
    (x1RenderChar rend target dx dy chCode color bg).data.getD
        (((dy + row) * target.width + dx) * 4 + ch) 0 =
      clampByte (chanOf bg ch + (chanOf color ch - chanOf bg ch) *
        (((if bg.isLight then rend.x1charDataLight else rend.x1charData).getD
            ((getChIndex chCode).toNat * 2 * 1 + row) 0 : ℚ) / 255)) := by
  have hw2 : 1 ≤ target.width := by omega
  have hguard : ¬ (((dx : ℕ) : ℤ) + 1 > (target.width : ℤ) ∨
      ((dy : ℕ) : ℤ) + 2 > (target.height : ℤ)) := by omega
  have hpix : (dy + row) * target.width + dx < target.width * target.height := by
    have h2 : dx < target.width := by omega
    calc (dy + row) * target.width + dx
        < (dy + row) * target.width + target.width := by omega
      _ = (dy + row + 1) * target.width := by ring
      _ ≤ target.height * target.width := Nat.mul_le_mul_right _ (by omega)
      _ = target.width * target.height := Nat.mul_comm _ _
  have hbound : ((dy + row) * target.width + dx) * 4 + ch < target.data.length := by
    rw [hlen]
    omega
  have hi : ((((dy + row) * target.width + dx) * 4 + ch : ℕ) : ℤ) =
      ((dy : ℕ) : ℤ) * ((target.width : ℤ) * 4) + ((dx : ℕ) : ℤ) * 4 +
        ((row : ℤ) * ((target.width : ℤ) * 4) + (ch : ℤ)) := by
    push_cast
    ring
  rw [x1RenderChar_data rend target dx dy chCode color bg hguard, writeBytes_getD]
  simp only [x1WriteList, List.foldl_cons, List.foldl_nil]
  rw [hi]
  interval_cases row <;> interval_cases ch
  all_goals repeat rw [if_neg (by rintro ⟨hA, -⟩ ; omega)]
  all_goals rw [if_pos ⟨by omega, hbound⟩]
  all_goals congr 1

set_option maxHeartbeats 1000000 in
/-- In-bounds x2 rendering leaves every byte outside the 24 sample channel
positions untouched. -/
theorem x2RenderChar_unwritten (rend : MinimapCharRenderer) (target : ImageData)
    (dx dy chCode : ℕ) (color bg : ParsedColor) (i : ℕ)
    (hw : dx + 2 ≤ target.width) (hh : dy + 4 ≤ target.height)
    (hni : ∀ row col ch : ℕ, row < 4 → col < 2 → ch < 3 →
      i ≠ ((dy + row) * target.width + (dx + col)) * 4 + ch) :
    (x2RenderChar rend target dx dy chCode color bg).data.getD i 0 =
      target.data.getD i 0 := by
  have hguard : ¬ (((dx : ℕ) : ℤ) + 2 > (target.width : ℤ) ∨
      ((dy : ℕ) : ℤ) + 4 > (target.height : ℤ)) := by omega
  have hcast : ∀ r c k : ℕ, ((((dy + r) * target.width + (dx + c)) * 4 + k : ℕ) : ℤ) =
      ((dy : ℕ) : ℤ) * ((target.width : ℤ) * 4) + ((dx : ℕ) : ℤ) * 4 +
        ((r : ℤ) * ((target.width : ℤ) * 4) + (c : ℤ) * 4 + (k : ℤ)) := by
    intro r c k
    push_cast
    ring
  have hz : ∀ r c k : ℕ, r < 4 → c < 2 → k < 3 →
      ((i : ℕ) : ℤ) ≠ ((dy : ℕ) : ℤ) * ((target.width : ℤ) * 4) + ((dx : ℕ) : ℤ) * 4 +
        ((r : ℤ) * ((target.width : ℤ) * 4) + (c : ℤ) * 4 + (k : ℤ)) := by
    intro r c k hr hc hk heq
    apply hni r c k hr hc hk
    have := hcast r c k
    omega
  have h000 := hz 0 0 0 (by omega) (by omega) (by omega)
  have h001 := hz 0 0 1 (by omega) (by omega) (by omega)
  have h002 := hz 0 0 2 (by omega) (by omega) (by omega)
  have h010 := hz 0 1 0 (by omega) (by omega) (by omega)
  have h011 := hz 0 1 1 (by omega) (by omega) (by omega)
  have h012 := hz 0 1 2 (by omega) (by omega) (by omega)
  have h100 := hz 1 0 0 (by omega) (by omega) (by omega)
  have h101 := hz 1 0 1 (by omega) (by omega) (by omega)
  have h102 := hz 1 0 2 (by omega) (by omega) (by omega)
  have h110 := hz 1 1 0 (by omega) (by omega) (by omega)
  have h111 := hz 1 1 1 (by omega) (by omega) (by omega)
  have h112 := hz 1 1 2 (by omega) (by omega) (by omega)
  have h200 := hz 2 0 0 (by omega) (by omega) (by omega)
  have h201 := hz 2 0 1 (by omega) (by omega) (by omega)
  have h202 := hz 2 0 2 (by omega) (by omega) (by omega)
  have h210 := hz 2 1 0 (by omega) (by omega) (by omega)
  have h211 := hz 2 1 1 (by omega) (by omega) (by omega)
  have h212 := hz 2 1 2 (by omega) (by omega) (by omega)
  have h300 := hz 3 0 0 (by omega) (by omega) (by omega)
  have h301 := hz 3 0 1 (by omega) (by omega) (by omega)
  have h302 := hz 3 0 2 (by omega) (by omega) (by omega)
  have h310 := hz 3 1 0 (by omega) (by omega) (by omega)
  have h311 := hz 3 1 1 (by omega) (by omega) (by omega)
  have h312 := hz 3 1 2 (by omega) (by omega) (by omega)
  rw [x2RenderChar_data rend target dx dy chCode color bg hguard, writeBytes_getD]
  simp only [x2WriteList, List.foldl_cons, List.foldl_nil]
  repeat rw [if_neg (by rintro ⟨hA, -⟩ ; omega)]

set_option maxHeartbeats 1000000 in
/-- In-bounds x1 rendering leaves every byte outside the 6 sample channel
positions untouched. -/
theorem x1RenderChar_unwritten (rend : MinimapCharRenderer) (target : ImageData)
    (dx dy chCode : ℕ) (color bg : ParsedColor) (i : ℕ)
    (hw : dx + 1 ≤ target.width) (hh : dy + 2 ≤ target.height)
    (hni : ∀ row ch : ℕ, row < 2 → ch < 3 →
      i ≠ ((dy + row) * target.width + dx) * 4 + ch) :
    (x1RenderChar rend target dx dy chCode color bg).data.getD i 0 =
      target.data.getD i 0 := by
  have hguard : ¬ (((dx : ℕ) : ℤ) + 1 > (target.width : ℤ) ∨
      ((dy : ℕ) : ℤ) + 2 > (target.height : ℤ)) := by omega
  have hcast : ∀ r k : ℕ, ((((dy + r) * target.width + dx) * 4 + k : ℕ) : ℤ) =
      ((dy : ℕ) : ℤ) * ((target.width : ℤ) * 4) + ((dx : ℕ) : ℤ) * 4 +
        ((r : ℤ) * ((target.width : ℤ) * 4) + (k : ℤ)) := by
    intro r k
    push_cast
    ring
  have hz : ∀ r k : ℕ, r < 2 → k < 3 →
      ((i : ℕ) : ℤ) ≠ ((dy : ℕ) : ℤ) * ((target.width : ℤ) * 4) + ((dx : ℕ) : ℤ) * 4 +
        ((r : ℤ) * ((target.width : ℤ) * 4) + (k : ℤ)) := by
    intro r k hr hk heq
    apply hni r k hr hk
    have := hcast r k
    omega
  have h00 := hz 0 0 (by omega) (by omega)
  have h01 := hz 0 1 (by omega) (by omega)
  have h02 := hz 0 2 (by omega) (by omega)
  have h10 := hz 1 0 (by omega) (by omega)
  have h11 := hz 1 1 (by omega) (by omega)
  have h12 := hz 1 2 (by omega) (by omega)
  rw [x1RenderChar_data rend target dx dy chCode color bg hguard, writeBytes_getD]
  simp only [x1WriteList, List.foldl_cons, List.foldl_nil]
  repeat rw [if_neg (by rintro ⟨hA, -⟩ ; omega)]

/-- Example renderer whose atlases hold the half-intensity sample 128. -/
def exRenderer128 : MinimapCharRenderer :=
  (MinimapCharRenderer.make (List.replicate 760 128) (List.replicate 190 128)).getD
    ⟨[], [], [], []⟩

/-- Example 2 by 4 target, all bytes zero. -/
def exTarget24 : ImageData := ⟨2, 4, List.replicate 32 0⟩

theorem claim_C8_counterexample :
    (((x2RenderChar exRenderer128 exTarget24 0 0 32 (ParsedColor.make 1 1 1)
        (ParsedColor.make 0 0 0)).data.getD 0 0 : ℕ) : ℚ) ≠
      chanOf (ParsedColor.make 0 0 0) 0 +
        (chanOf (ParsedColor.make 1 1 1) 0 - chanOf (ParsedColor.make 0 0 0) 0) *
          (((if (ParsedColor.make 0 0 0).isLight then exRenderer128.x2charDataLight
             else exRenderer128.x2charData).getD
              ((getChIndex 32).toNat * 4 * 2 + (0 * 2 + 0)) 0 : ℚ) / 255) := by
  have hbyte := x2RenderChar_written exRenderer128 exTarget24 0 0 32
      (ParsedColor.make 1 1 1) (ParsedColor.make 0 0 0) 0 0 0
      (by norm_num [exTarget24]) (by norm_num [exTarget24])
      (by norm_num [exTarget24]) (by omega) (by omega) (by omega)
  have hlight : (ParsedColor.make 0 0 0).isLight = false := by
    simp only [ParsedColor.make, decide_eq_false_iff_not]
    norm_num
  have hx2 : exRenderer128.x2charData = List.replicate 760 128 := by
    norm_num [exRenderer128, MinimapCharRenderer.make]
  have hidx : (getChIndex 32).toNat = 0 := by decide
  have hget : (List.replicate 760 (128 : ℕ)).getD (0 * 4 * 2 + (0 * 2 + 0)) 0 = 128 := by
    rw [List.getD_eq_getElem?_getD, List.getElem?_replicate]
    norm_num
  simp only [exTarget24] at hbyte ⊢
  norm_num at hbyte
  simp only [hlight, if_false, hx2, hidx, hget, chanOf, if_pos rfl] at hbyte ⊢
  norm_num at hbyte ⊢
  have hval : (ParsedColor.make 0 0 0).r +
      ((ParsedColor.make 1 1 1).r - (ParsedColor.make 0 0 0).r) * ((128 : ℚ) / 255) =
      128 / 255 := by
    simp only [ParsedColor.make]
    ring
  rw [hval] at hbyte ⊢
  rw [hbyte]
  have hcl : clampByte ((128 : ℚ) / 255) = 1 := by
    have hfloor : ⌊(128 : ℚ) / 255⌋ = 0 := by
      apply Int.floor_eq_zero_iff.2
      constructor <;> norm_num
    rw [clampByte, if_neg (by norm_num), if_neg (by norm_num), roundHalfEven, hfloor]
    norm_num
  rw [hcl]
  norm_num

/-- C8 (amended): for every in-bounds call, each sample pixel channel byte
of the target is set to the ToUint8Clamp conversion (clamp to 0..255 and
round to the nearest integer, ties to even) of backgroundChannel +
(foregroundChannel - backgroundChannel) * (sampleIntensity / 255); every
byte outside the sample channel positions, the alpha byte of every pixel
included, is never written; and the softened atlas variant is read exactly
when backgroundColor.isLight is true. -/
theorem claim_C8 (rend : MinimapCharRenderer) (target : ImageData)
    (dx dy chCode : ℕ) (color bg : ParsedColor)
    (hlen : target.data.length = target.width * target.height * 4) :
    (dx + 2 ≤ target.width → dy + 4 ≤ target.height →
      (∀ row col ch : ℕ, row < 4 → col < 2 → ch < 3 →
        (x2RenderChar rend target dx dy chCode color bg).data.getD
            (((dy + row) * target.width + (dx + col)) * 4 + ch) 0 =
          clampByte (chanOf bg ch + (chanOf color ch - chanOf bg ch) *
            (((if bg.isLight then rend.x2charDataLight else rend.x2charData).getD
                ((getChIndex chCode).toNat * 4 * 2 + (row * 2 + col)) 0 : ℚ) / 255))) ∧
      (∀ i : ℕ, (∀ row col ch : ℕ, row < 4 → col < 2 → ch < 3 →
          i ≠ ((dy + row) * target.width + (dx + col)) * 4 + ch) →
        (x2RenderChar rend target dx dy chCode color bg).data.getD i 0 =
          target.data.getD i 0) ∧
      (∀ p : ℕ, (x2RenderChar rend target dx dy chCode color bg).data.getD
          (4 * p + 3) 0 = target.data.getD (4 * p + 3) 0)) ∧
    (dx + 1 ≤ target.width → dy + 2 ≤ target.height →
      (∀ row ch : ℕ, row < 2 → ch < 3 →
        (x1RenderChar rend target dx dy chCode color bg).data.getD
            (((dy + row) * target.width + dx) * 4 + ch) 0 =
          clampByte (chanOf bg ch + (chanOf color ch - chanOf bg ch) *
            (((if bg.isLight then rend.x1charDataLight else rend.x1charData).getD
                ((getChIndex chCode).toNat * 2 * 1 + row) 0 : ℚ) / 255))) ∧
      (∀ i : ℕ, (∀ row ch : ℕ, row < 2 → ch < 3 →
          i ≠ ((dy + row) * target.width + dx) * 4 + ch) →
        (x1RenderChar rend target dx dy chCode color bg).data.getD i 0 =
          target.data.getD i 0) ∧
      (∀ p : ℕ, (x1RenderChar rend target dx dy chCode color bg).data.getD
          (4 * p + 3) 0 = target.data.getD (4 * p + 3) 0)) := by
  constructor
  · intro hw hh
    refine ⟨fun row col ch hr hc hk =>
        x2RenderChar_written rend target dx dy chCode color bg row col ch hw hh hlen hr hc hk,
      fun i hni =>
        x2RenderChar_unwritten rend target dx dy chCode color bg i hw hh hni,
      fun p =>
        x2RenderChar_unwritten rend target dx dy chCode color bg (4 * p + 3) hw hh ?_⟩
    intro row col ch hr hc hk
    omega
  · intro hw hh
    refine ⟨fun row ch hr hk =>
        x1RenderChar_written rend target dx dy chCode color bg row ch hw hh hlen hr hk,
      fun i hni =>
        x1RenderChar_unwritten rend target dx dy chCode color bg i hw hh hni,
      fun p =>
        x1RenderChar_unwritten rend target dx dy chCode color bg (4 * p + 3) hw hh ?_⟩
    intro row ch hr hk
    omega

/-- Witness for C8 on the concrete 2 by 4 zero target with the
all-opaque renderer. -/
theorem claim_C8_witness :
    exTarget24.data.length = exTarget24.width * exTarget24.height * 4 ∧
    (x2RenderChar exRenderer exTarget24 0 0 65 (ParsedColor.make 255 255 255)
        (ParsedColor.make 0 0 0)).data.getD (((0 + 0) * exTarget24.width + (0 + 0)) * 4 + 0) 0 =
      clampByte (chanOf (ParsedColor.make 0 0 0) 0 +
        (chanOf (ParsedColor.make 255 255 255) 0 - chanOf (ParsedColor.make 0 0 0) 0) *
          (((if (ParsedColor.make 0 0 0).isLight then exRenderer.x2charDataLight
             else exRenderer.x2charData).getD
              ((getChIndex 65).toNat * 4 * 2 + (0 * 2 + 0)) 0 : ℚ) / 255)) :=
  ⟨by norm_num [exTarget24],
   ((claim_C8 exRenderer exTarget24 0 0 65 (ParsedColor.make 255 255 255)
        (ParsedColor.make 0 0 0) (by norm_num [exTarget24])).1
      (by norm_num [exTarget24]) (by norm_num [exTarget24])).1 0 0 0
      (by omega) (by omega) (by omega)⟩

theorem x2neg_byte :
    (x2RenderChar exRenderer ⟨1, 4, List.replicate 16 0⟩ (-1) 0 32
        (ParsedColor.make 255 255 255) (ParsedColor.make 0 0 0)).data.getD 0 0 = 255 := by
  have hguard : ¬ ((-1 : ℤ) + 2 > ((((⟨1, 4, List.replicate 16 0⟩ : ImageData)).width : ℕ) : ℤ) ∨
      (0 : ℤ) + 4 > ((((⟨1, 4, List.replicate 16 0⟩ : ImageData)).height : ℕ) : ℤ)) := by
    norm_num
  rw [x2RenderChar_data _ _ _ _ _ _ _ hguard, writeBytes_getD]
  simp only [x2WriteList, List.foldl_cons, List.foldl_nil]
  have hlight : (ParsedColor.make 0 0 0).isLight = false := by
    simp only [ParsedColor.make, decide_eq_false_iff_not]
    norm_num
  have hx2 : exRenderer.x2charData = List.replicate 760 255 := by
    norm_num [exRenderer, MinimapCharRenderer.make]
  have hidx : (getChIndex 32).toNat = 0 := by decide
  have hget : (List.replicate 760 (255 : ℕ)).getD (0 * 4 * 2 + 2) 0 = 255 := by
    rw [List.getD_eq_getElem?_getD, List.getElem?_replicate]
    norm_num
  simp only [hlight, if_neg Bool.false_ne_true, hx2, hidx, hget]
  iterate 17 rw [if_neg (by norm_num)]
  rw [if_pos ⟨by norm_num, by norm_num⟩]
  simp only [ParsedColor.make]
  have hv : (0 : ℚ) + ((255 : ℚ) - 0) * (((255 : ℕ) : ℚ) / 255) = 255 := by norm_num
  rw [hv, clampByte, if_neg (by norm_num), if_pos (by norm_num)]

theorem x1neg_byte :
    (x1RenderChar exRenderer ⟨1, 1, [0, 0, 0, 0]⟩ 0 (-1) 32
        (ParsedColor.make 255 255 255) (ParsedColor.make 0 0 0)).data.getD 0 0 = 255 := by
  have hguard : ¬ ((0 : ℤ) + 1 > ((((⟨1, 1, [0, 0, 0, 0]⟩ : ImageData)).width : ℕ) : ℤ) ∨
      (-1 : ℤ) + 2 > ((((⟨1, 1, [0, 0, 0, 0]⟩ : ImageData)).height : ℕ) : ℤ)) := by
    norm_num
  rw [x1RenderChar_data _ _ _ _ _ _ _ hguard, writeBytes_getD]
  simp only [x1WriteList, List.foldl_cons, List.foldl_nil]
  have hlight : (ParsedColor.make 0 0 0).isLight = false := by
    simp only [ParsedColor.make, decide_eq_false_iff_not]
    norm_num
  have hx1 : exRenderer.x1charData = List.replicate 190 255 := by
    norm_num [exRenderer, MinimapCharRenderer.make]
  have hidx : (getChIndex 32).toNat = 0 := by decide
  have hget : (List.replicate 190 (255 : ℕ)).getD (0 * 2 * 1 + 1) 0 = 255 := by
    rw [List.getD_eq_getElem?_getD, List.getElem?_replicate]
    norm_num
  simp only [hlight, if_neg Bool.false_ne_true, hx1, hidx, hget]
  iterate 2 rw [if_neg (by norm_num)]
  rw [if_pos ⟨by norm_num, by norm_num⟩]
  simp only [ParsedColor.make]
  have hv : (0 : ℚ) + ((255 : ℚ) - 0) * (((255 : ℕ) : ℚ) / 255) = 255 := by norm_num
  rw [hv, clampByte, if_neg (by norm_num), if_pos (by norm_num)]

/-- C10: the bounds guard of both render functions checks only the upper
edges of the target, so any negative destination coordinate that still
meets the upper-edge constraints passes the guard, and stores are then
attempted at offsets computed from the negative coordinate: on concrete
all-zero targets some of those stores land inside the buffer, so the
no-write guarantee does not extend to negative coordinates. -/
theorem claim_C10 :
    (∀ (target : ImageData) (dx dy : ℤ), dx < 0 ∨ dy < 0 →
      dx + 2 ≤ (target.width : ℤ) → dy + 4 ≤ (target.height : ℤ) →
      ¬ (dx + 2 > (target.width : ℤ) ∨ dy + 4 > (target.height : ℤ))) ∧
    (∀ (target : ImageData) (dx dy : ℤ), dx < 0 ∨ dy < 0 →
      dx + 1 ≤ (target.width : ℤ) → dy + 2 ≤ (target.height : ℤ) →
      ¬ (dx + 1 > (target.width : ℤ) ∨ dy + 2 > (target.height : ℤ))) ∧
    (x2RenderChar exRenderer ⟨1, 4, List.replicate 16 0⟩ (-1) 0 32
        (ParsedColor.make 255 255 255) (ParsedColor.make 0 0 0)).data ≠
      List.replicate 16 0 ∧
    (x1RenderChar exRenderer ⟨1, 1, [0, 0, 0, 0]⟩ 0 (-1) 32
        (ParsedColor.make 255 255 255) (ParsedColor.make 0 0 0)).data ≠
      [0, 0, 0, 0] := by
  refine ⟨?_, ?_, ?_, ?_⟩
  · intro t dx dy h h1 h2
    omega
  · intro t dx dy h h1 h2
    omega
  · intro hEq
    have h0 := x2neg_byte
    rw [hEq, List.getD_eq_getElem?_getD, List.getElem?_replicate] at h0
    norm_num at h0
  · intro hEq
    have h0 := x1neg_byte
    rw [hEq] at h0
    norm_num [List.getD] at h0

/-- Witness for C10: a negative x coordinate on the 1 by 4 target passes
the x2 guard. -/
theorem claim_C10_witness :
    (-1 : ℤ) < 0 ∧
    ¬ ((-1 : ℤ) + 2 > (((⟨1, 4, List.replicate 16 0⟩ : ImageData)).width : ℤ) ∨
       (0 : ℤ) + 4 > (((⟨1, 4, List.replicate 16 0⟩ : ImageData)).height : ℤ)) :=
  ⟨by norm_num,
   claim_C10.1 ⟨1, 4, List.replicate 16 0⟩ (-1) 0 (Or.inl (by norm_num))
     (by norm_num) (by norm_num)⟩

/-- Virtual document URI as the content provider sees it: the query
component carrying the revision, the file-system path, and the path the
host returns from workspace.asRelativePath. Strings are lists of code
units. -/
structure Uri where
  query : List ℕ
  fsPath : List ℕ
  relativePath : List ℕ
deriving DecidableEq

/-- Code units of a string literal. -/
def strCodes (s : String) : List ℕ := s.data.map Char.toNat

/-- Anchored match of the first filter regular expression: the relative
path starts with the metadata directory segment .git/ at its very
beginning. -/
def isGitPath (s : List ℕ) : Bool :=
  decide (s.take (strCodes ".git/").length = strCodes ".git/")

/-- Match of the second filter regular expression: the file-system path
ends with the index lock suffix /.git/index.lock. -/
def isIndexLock (s : List ℕ) : Bool :=
  decide (s.drop (s.length - (strCodes "/.git/index.lock").length) =
    strCodes "/.git/index.lock")

/-- The refresh set of the provider is a JavaScript Set of URIs: iteration
follows insertion order and holds no duplicates, so it is modelled as a
duplicate-free list. Set.prototype.add appends a member not yet present. -/
def setAdd (uris : List Uri) (u : Uri) : List Uri :=
  if u ∈ uris then uris else uris ++ [u]

/-- Set.prototype.delete removes the member when present. -/
def setDelete (uris : List Uri) (u : Uri) : List Uri :=
  uris.erase u

/-- GitContentProvider.provideTextDocumentContent: delegate to the model
show operation with the query and the URI; on success add the URI to the
refresh set and return the content, on rejection remove it from the set
and resolve to the empty string instead of propagating the error. The
pair holds the resolved content and the refresh set after the call. -/
def provideTextDocumentContent {E : Type} (showFn : List ℕ → Uri → Except E String)
    (uris : List Uri) (uri : Uri) : String × List Uri :=
  match showFn uri.query uri with
  | Except.ok result => (result, setAdd uris uri)
  | Except.error _ => ("", setDelete uris uri)

/-- Modelled from the spec: the filterEvent combinator from ./util is not
part of the provided sources. Per the specification the constructor
listens for file-system change events, keeps the changes under the
version-control metadata directory while excluding the index lock file,
and on any surviving change re-fires the provider change notification for
every URI in the refresh set, in iteration order. The result lists the
URIs notified for one workspace file event. -/
def handleWorkspaceFileEvent (uris : List Uri) (ev : Uri) : List Uri :=
  if isGitPath ev.relativePath && !(isIndexLock ev.fsPath) then uris else []

/-- C2: when the model show operation resolves, the call returns that
content and afterwards the URI is in the refresh set; when it rejects,
the call still resolves, with the empty string, and afterwards the URI is
absent from the refresh set. -/
theorem claim_C2 {E : Type} (showFn : List ℕ → Uri → Except E String)
    (uris : List Uri) (uri : Uri) (hnd : uris.Nodup) :
    (∀ s, showFn uri.query uri = Except.ok s →
      (provideTextDocumentContent showFn uris uri).1 = s ∧
      uri ∈ (provideTextDocumentContent showFn uris uri).2) ∧
    (∀ e, showFn uri.query uri = Except.error e →
      (provideTextDocumentContent showFn uris uri).1 = "" ∧
      uri ∉ (provideTextDocumentContent showFn uris uri).2) := by
  constructor
  · intro s h
    refine ⟨by simp [provideTextDocumentContent, h], ?_⟩
    simp only [provideTextDocumentContent, h, setAdd]
    by_cases hm : uri ∈ uris
    · rw [if_pos hm]
      exact hm
    · rw [if_neg hm]
      simp
  · intro e h
    refine ⟨by simp [provideTextDocumentContent, h], ?_⟩
    simp only [provideTextDocumentContent, h, setDelete]
    exact hnd.not_mem_erase

/-- Example URI for the concrete content provider scenarios. -/
def exUri : Uri := ⟨strCodes "HEAD", strCodes "/repo/a.txt", strCodes "a.txt"⟩

/-- Witness for C2: a model that resolves and a model that rejects, both
at a concrete URI. -/
theorem claim_C2_witness :
    ((provideTextDocumentContent (fun _ _ => (Except.ok "content" : Except Unit String))
        [] exUri).1 = "content" ∧
      exUri ∈ (provideTextDocumentContent
        (fun _ _ => (Except.ok "content" : Except Unit String)) [] exUri).2) ∧
    ((provideTextDocumentContent (fun _ _ => (Except.error () : Except Unit String))
        [exUri] exUri).1 = "" ∧
      exUri ∉ (provideTextDocumentContent
        (fun _ _ => (Except.error () : Except Unit String)) [exUri] exUri).2) :=
  ⟨(claim_C2 (fun _ _ => Except.ok "content") [] exUri List.nodup_nil).1 "content" rfl,
   (claim_C2 (fun _ _ => Except.error ()) [exUri] exUri
      (List.nodup_singleton exUri)).2 () rfl⟩

/-- C3: an event under the metadata directory ending in the index lock
file notifies nobody; any other event under the metadata directory
notifies each URI of the refresh set exactly once; composed with a
resolution, a URI whose last resolution failed receives no notification
and a URI whose last resolution succeeded receives exactly one. -/
theorem claim_C3 (uris : List Uri) (ev : Uri) (hnd : uris.Nodup) :
    (isGitPath ev.relativePath = true → isIndexLock ev.fsPath = true →
      handleWorkspaceFileEvent uris ev = []) ∧
    (isGitPath ev.relativePath = true → isIndexLock ev.fsPath = false →
      ∀ u : Uri, (handleWorkspaceFileEvent uris ev).count u =
        if u ∈ uris then 1 else 0) ∧
    (∀ {E : Type} (showFn : List ℕ → Uri → Except E String) (uri : Uri) (e : E),
      isGitPath ev.relativePath = true → isIndexLock ev.fsPath = false →
      showFn uri.query uri = Except.error e →
      (handleWorkspaceFileEvent (provideTextDocumentContent showFn uris uri).2 ev).count
        uri = 0) ∧
    (∀ {E : Type} (showFn : List ℕ → Uri → Except E String) (uri : Uri) (s : String),
      isGitPath ev.relativePath = true → isIndexLock ev.fsPath = false →
      showFn uri.query uri = Except.ok s →
      (handleWorkspaceFileEvent (provideTextDocumentContent showFn uris uri).2 ev).count
        uri = 1) := by
  have hcount : ∀ (l : List Uri) (u : Uri), l.Nodup →
      l.count u = if u ∈ l then 1 else 0 := by
    intro l u hl
    by_cases hm : u ∈ l
    · rw [if_pos hm]
      exact List.count_eq_one_of_mem hl hm
    · rw [if_neg hm]
      exact List.count_eq_zero.2 hm
  refine ⟨?_, ?_, ?_, ?_⟩
  · intro h1 h2
    simp [handleWorkspaceFileEvent, h1, h2]
  · intro h1 h2 u
    rw [handleWorkspaceFileEvent, if_pos (by rw [h1, h2]; rfl)]
    exact hcount uris u hnd
  · intro E showFn uri e h1 h2 hshow
    rw [handleWorkspaceFileEvent, if_pos (by rw [h1, h2]; rfl)]
    rw [provideTextDocumentContent, hshow]
    rw [hcount (setDelete uris uri) uri (hnd.erase uri),
      if_neg (show uri ∉ setDelete uris uri from hnd.not_mem_erase)]
  · intro E showFn uri s h1 h2 hshow
    rw [handleWorkspaceFileEvent, if_pos (by rw [h1, h2]; rfl)]
    rw [provideTextDocumentContent, hshow]
    have hadd : (setAdd uris uri).Nodup := by
      rw [setAdd]
      by_cases hm : uri ∈ uris
      · rw [if_pos hm]
        exact hnd
      · rw [if_neg hm]
        simp [List.nodup_append, hnd, hm]
    have hmem : uri ∈ setAdd uris uri := by
      rw [setAdd]
      by_cases hm : uri ∈ uris
      · rw [if_pos hm]
        exact hm
      · rw [if_neg hm]
        simp
    rw [hcount (setAdd uris uri) uri hadd, if_pos hmem]

/-- Example git metadata event: the HEAD file changed. -/
def exEventHead : Uri :=
  ⟨strCodes "", strCodes "/repo/.git/HEAD", strCodes ".git/HEAD"⟩

/-- Witness for C3: a HEAD change notifies the one resolved URI exactly
once. -/
theorem claim_C3_witness :
    isGitPath exEventHead.relativePath = true ∧
    isIndexLock exEventHead.fsPath = false ∧
    (handleWorkspaceFileEvent [exUri] exEventHead).count exUri = 1 := by
  refine ⟨by decide, by decide, ?_⟩
  rw [(claim_C3 [exUri] exEventHead (List.nodup_singleton exUri)).2.1
    (by decide) (by decide) exUri, if_pos (by decide)]
